import Mathlib

/-!
Verification development for the tmux-supertree session tree program.

Strings from the Python source are modelled as `List Char`; Python's
`str.lower` is modelled as a character-wise `Char.toLower` map, and
`str.replace(" ", "")` as filtering out space characters.  All
definitions below are shallow embeddings of the functions in
`tmux_supertree/main.py` and the dataclasses in `tmux_supertree/tmux.py`.
-/

/-- Character-wise lower-casing, modelling Python `str.lower()`. -/
def lowerL (s : List Char) : List Char := s.map Char.toLower

/-- Removal of space characters, modelling Python `str.replace(" ", "")`. -/
def stripSpaces (s : List Char) : List Char := s.filter (fun c => !(c == ' '))

/-- Greedy subsequence scan: walk the second list, consuming the head of the
first list whenever the current character equals it; succeed when the first
list is fully consumed.  This is the loop of `_is_fuzzy_match` in
`main.py` (the Python version returns `True` as soon as the index reaches
the pattern length, which is the same as finishing with an empty pattern). -/
def subseqScan : List Char → List Char → Bool
  | [], _ => true
  | _ :: _, [] => false
  | p :: ps, c :: cs => if c = p then subseqScan ps cs else subseqScan (p :: ps) cs

/-- Embedding of `_is_fuzzy_match(search_term, name)` from `main.py`:
lower-case both strings and run the greedy subsequence scan (the empty
search term succeeds immediately). -/
def is_fuzzy_match (search_term name : List Char) : Bool :=
  subseqScan (lowerL search_term) (lowerL name)

/-- The emphasis wrapper applied to a matched character in
`_apply_fuzzy_markup`. -/
def wrapChar (c : Char) : List Char :=
  "[underline bold]".data ++ [c] ++ "[/]".data

/-- The main loop of `_apply_fuzzy_markup`: walk the candidate name; a
character matches when the pattern is not yet exhausted and its lower-case
form equals the next pattern character; matched characters are wrapped.
Returns the produced chunks and the unconsumed rest of the pattern (the
Python code tracks `num_matches`, which equals the number of consumed
pattern characters, and tests `num_matches == len(search_term)`; that test
is equivalent to the returned rest being empty). -/
def markupLoop : List Char → List Char → List (List Char) × List Char
  | pat, [] => (([] : List (List Char)), pat)
  | [], c :: rest =>
    let r := markupLoop [] rest
    ([c] :: r.1, r.2)
  | p :: ps, c :: rest =>
    if c.toLower = p then
      let r := markupLoop ps rest
      (wrapChar c :: r.1, r.2)
    else
      let r := markupLoop (p :: ps) rest
      ([c] :: r.1, r.2)

/-- Embedding of `_apply_fuzzy_markup(search_term, parent_name, name)` from
`main.py`.  An empty search term returns the name unchanged.  If the term
contains "/", the part before the first "/" is the parent search term and
the rest is matched against the candidate; the parent check only runs when
both the parent name and the parent search term are non-empty (Python
truthiness of `parent_name and parent_search_term`). -/
def apply_fuzzy_markup (search_term parent_name name : List Char) :
    Option (List Char) :=
  if search_term.isEmpty then some name
  else
    let hasSlash := search_term.contains '/'
    let parent_search_term := search_term.takeWhile (fun c => !(c == '/'))
    let rest :=
      if hasSlash then (search_term.dropWhile (fun c => !(c == '/'))).tail
      else search_term
    if hasSlash && !parent_name.isEmpty && !parent_search_term.isEmpty
        && !(is_fuzzy_match parent_search_term parent_name) then
      none
    else
      let pat := stripSpaces (lowerL rest)
      let r := markupLoop pat name
      if r.2.isEmpty then some r.1.flatten else none

/-!
Data model: the dataclasses of `tmux_supertree/tmux.py`.  `jump_code`
defaults to `-1` and `is_enabled` to `true`, exactly as in the source;
`_refresh` overwrites them on the nodes it displays.
-/

/-- Embedding of the `TmuxPane` dataclass. -/
structure TmuxPane where
  id : List Char
  name : List Char
  index : List Char
  window_id : List Char
  session_id : List Char
  jump_code : Int := -1
  is_enabled : Bool := true
deriving DecidableEq

/-- Embedding of the `TmuxWindow` dataclass. -/
structure TmuxWindow where
  id : List Char
  name : List Char
  index : List Char
  session_id : List Char
  jump_code : Int := -1
  is_enabled : Bool := true
  panes : List TmuxPane := []
deriving DecidableEq

/-- Embedding of the `TmuxSession` dataclass. -/
structure TmuxSession where
  id : List Char
  name : List Char
  jump_code : Int := -1
  is_enabled : Bool := true
  windows : List TmuxWindow := []
deriving DecidableEq

/-- A tree node's payload: a session, a window or a pane (the `data`
attached to each tree node by `_refresh.add`). -/
inductive NodeData where
  | session (s : TmuxSession)
  | window (w : TmuxWindow)
  | pane (p : TmuxPane)
deriving DecidableEq

/-- Embedding of `tmux.get_session_id` for non-`None` objects: a session
yields its own id, a window or pane yields its owning session id. -/
def get_session_id : NodeData → List Char
  | .session s => s.id
  | .window w => w.session_id
  | .pane p => p.session_id

/-- The `.id` attribute of any node payload (Python accesses
`next_target.id` uniformly on all three kinds). -/
def dataId : NodeData → List Char
  | .session s => s.id
  | .window w => w.id
  | .pane p => p.id

/-- The `.jump_code` attribute of any node payload. -/
def dataJump : NodeData → Int
  | .session s => s.jump_code
  | .window w => w.jump_code
  | .pane p => p.jump_code

/-- Tag distinguishing the kind of a displayed node. -/
inductive NodeKind where
  | session
  | window
  | pane
deriving DecidableEq

/-- One row of the rendered tree, as produced by `_refresh.add`:
its jump code, enabled flag, rendered label, kind and the id of the
underlying tmux entity. -/
structure DisplayNode where
  jump_code : Nat
  is_enabled : Bool
  label : List Char
  kind : NodeKind
  node_id : List Char
deriving DecidableEq

/-- The module-level toggle flags and search term read by `_refresh`
(`show_guides` only affects widget chrome and is omitted). -/
structure Config where
  show_panes : Bool := false
  show_numbers : Bool := false
  show_hidden_sessions : Bool := false
  focus_on_session : Option (List Char) := none
  search_term : List Char := []
deriving DecidableEq

/-- Test for a name starting with two underscores, modelling
`session.name.startswith('__')`. -/
def startsWithUU (l : List Char) : Bool :=
  "__".data.isPrefixOf l

/-- The two `continue` filters at the top of the session loop in
`_refresh`: a session is emitted iff it passes the hidden-session test and
the single-session focus test. -/
def sessionVisible (cfg : Config) (s : TmuxSession) : Bool :=
  (cfg.show_hidden_sessions || !(startsWithUU s.name)) &&
  (match cfg.focus_on_session with
   | none => true
   | some fid => s.id == fid)

/-- The dimmed label given to a node whose fuzzy match failed:
`f"[#777777]{name}[/]"`. -/
def dimName (name : List Char) : List Char :=
  "[#777777]".data ++ name ++ "[/]".data

/-- The numbered label prefix `f"[#666666]{jump_code}:[/] "`. -/
def numPrefix (jc : Nat) : List Char :=
  "[#666666]".data ++ (Nat.repr jc).data ++ ":[/] ".data

/-- The marking part of `_refresh.add`: given the already-incremented jump
code, the parent display name and the node's display name, compute the
`is_enabled` flag and the rendered label.  Python tests the truthiness of
`marked_name`, so an empty marked string also counts as a failed match. -/
def addMark (cfg : Config) (jc : Nat) (parent_name name : List Char) :
    Bool × List Char :=
  let m := apply_fuzzy_markup cfg.search_term parent_name name
  let truthy := match m with
    | some s => !s.isEmpty
    | none => false
  let nm := match m with
    | some s => if s.isEmpty then dimName name else s
    | none => dimName name
  (truthy, if cfg.show_numbers then numPrefix jc ++ nm else nm)

/-- The pane loop of `_refresh`: each pane is added under its window with
the window's raw `name` as parent name (the parent node's `data.name`).
Returns the updated pane records, the display rows in order, and the jump
counter after the loop. -/
def refreshPanes (cfg : Config) (parent_name : List Char) (jump : Nat) :
    List TmuxPane → List TmuxPane × List DisplayNode × Nat
  | [] => ([], [], jump)
  | p :: rest =>
    let pane_name := if p.name.isEmpty then "Pane ".data ++ p.index else p.name
    let jc := jump + 1
    let el := addMark cfg jc parent_name pane_name
    let p' := { p with jump_code := (jc : Int), is_enabled := el.1 }
    let d : DisplayNode := ⟨jc, el.1, el.2, .pane, p.id⟩
    let r := refreshPanes cfg parent_name jc rest
    (p' :: r.1, d :: r.2.1, r.2.2)

/-- The window loop of `_refresh`: each window is added under its session
(parent name = session name); its display name falls back to
`f"Window {index}"` when the raw name is empty; panes follow when
`show_panes` is on, with the window's raw name as their parent name. -/
def refreshWindows (cfg : Config) (session_name : List Char) (jump : Nat) :
    List TmuxWindow → List TmuxWindow × List DisplayNode × Nat
  | [] => ([], [], jump)
  | w :: rest =>
    let window_name :=
      if w.name.isEmpty then "Window ".data ++ w.index else w.name
    let jc := jump + 1
    let el := addMark cfg jc session_name window_name
    let pr :=
      if cfg.show_panes then refreshPanes cfg w.name jc w.panes
      else (w.panes, [], jc)
    let w' := { w with jump_code := (jc : Int), is_enabled := el.1,
                       panes := pr.1 }
    let d : DisplayNode := ⟨jc, el.1, el.2, .window, w.id⟩
    let r := refreshWindows cfg session_name pr.2.2 rest
    (w' :: r.1, d :: (pr.2.1 ++ r.2.1), r.2.2)

/-- The session loop of `_refresh`: sessions filtered out by
`sessionVisible` are skipped unchanged (their jump codes keep the
dataclass default); visible sessions are added with the root's empty
parent name, followed by their windows. -/
def refreshSessions (cfg : Config) (jump : Nat) :
    List TmuxSession → List TmuxSession × List DisplayNode × Nat
  | [] => ([], [], jump)
  | s :: rest =>
    if sessionVisible cfg s then
      let jc := jump + 1
      let el := addMark cfg jc [] s.name
      let wr := refreshWindows cfg s.name jc s.windows
      let s' := { s with jump_code := (jc : Int), is_enabled := el.1,
                         windows := wr.1 }
      let d : DisplayNode := ⟨jc, el.1, el.2, .session, s.id⟩
      let r := refreshSessions cfg wr.2.2 rest
      (s' :: r.1, d :: (wr.2.1 ++ r.2.1), r.2.2)
    else
      let r := refreshSessions cfg jump rest
      (s :: r.1, r.2.1, r.2.2)

/-- Result of one `_refresh` pass: the snapshot with jump codes and
enabled flags written into the visited nodes, and the display rows in
tree pre-order. -/
structure RefreshResult where
  sessions : List TmuxSession
  disp : List DisplayNode
deriving DecidableEq

/-- Embedding of `TmuxTree._refresh` over a given snapshot (the snapshot
pull itself is the external provider; an empty snapshot yields an empty
display list, the placeholder row carries no node data). -/
def refresh (cfg : Config) (snap : List TmuxSession) : RefreshResult :=
  let r := refreshSessions cfg 0 snap
  ⟨r.1, r.2.1⟩

/-!
Coordinator helpers from `main.py`: `_find_window`, `_find_target`,
`_find_session_by_name`, the delete-replacement heuristics and the
mutation command sequences.
-/

/-- Embedding of `_find_window(window_id)`: first window with the given id,
scanning sessions in order (hidden sessions included). -/
def find_window (sessions : List TmuxSession) (window_id : List Char) :
    Option TmuxWindow :=
  sessions.findSome? (fun s => s.windows.find? (fun w => w.id == window_id))

/-- Embedding of `_find_target(tmux_object)`: re-locate a session, window
or pane by its id, scanning in tree order. -/
def find_target (sessions : List TmuxSession) (obj : NodeData) :
    Option NodeData :=
  match obj with
  | .session s0 =>
    (sessions.find? (fun s => s.id == s0.id)).map NodeData.session
  | .window w0 =>
    (sessions.findSome? (fun s =>
      s.windows.find? (fun w => w.id == w0.id))).map NodeData.window
  | .pane p0 =>
    (sessions.findSome? (fun s => s.windows.findSome? (fun w =>
      w.panes.find? (fun p => p.id == p0.id)))).map NodeData.pane

/-- Embedding of `_find_session_by_name(name)`: first session whose name
equals the given name. -/
def find_session_by_name (sessions : List TmuxSession) (name : List Char) :
    Option TmuxSession :=
  sessions.find? (fun s => s.name == name)

/-- Replacement-focus choice of `handle_delete_session`: walk the
visitation history backward for the first entry whose session id differs
from the deleted session's id; failing that, take the first other session
of the snapshot. -/
def handle_delete_session_next (history : List NodeData)
    (sessions : List TmuxSession) (target : TmuxSession) : Option NodeData :=
  match history.reverse.find? (fun obj => !(get_session_id obj == target.id)) with
  | some x => some x
  | none =>
    (sessions.find? (fun s => !(s.id == target.id))).map NodeData.session

/-- Replacement-focus choice of `handle_delete_window`: walk the
visitation history backward for the first entry that is not the target
itself; failing that, run the fallback scan.  The Python fallback's
`break` only leaves the inner loop, so each session with a window whose id
differs from the target's overwrites the previous choice — the result is
the first qualifying window of the last such session. -/
def handle_delete_window_next (history : List NodeData)
    (sessions : List TmuxSession) (target : TmuxWindow) : Option NodeData :=
  match history.reverse.find? (fun obj => !(obj == NodeData.window target)) with
  | some x => some x
  | none =>
    (sessions.foldl (fun acc s =>
      match s.windows.find? (fun w => !(w.id == target.id)) with
      | some w => some w
      | none => acc) none).map NodeData.window

/-- External tmux commands issued by the coordinator. -/
inductive ExtCmd where
  | switch_client (target : List Char)
  | kill_session (target : List Char)
  | kill_window (target : List Char)
  | kill_pane (target : List Char)
  | rename_session (target name : List Char)
  | rename_window (target name : List Char)
deriving DecidableEq

/-- Whether a command destroys an entity. -/
def isDestructive : ExtCmd → Bool
  | .kill_session _ => true
  | .kill_window _ => true
  | .kill_pane _ => true
  | _ => false

/-- The destructive command chosen by the target's kind in
`_handle_delete_target` (`command_names[type(target)]`). -/
def killCmd : NodeData → ExtCmd
  | .session s => .kill_session s.id
  | .window w => .kill_window w.id
  | .pane p => .kill_pane p.id

/-- The `cmds` list built by `_handle_delete_target`: a switch-client to
the replacement when one exists, then the kind-selected kill command. -/
def delete_cmds (target : NodeData) (next_target : Option NodeData) :
    List ExtCmd :=
  (match next_target with
   | some n => [ExtCmd.switch_client (dataId n)]
   | none => []) ++ [killCmd target]

/-- Sequential execution with `check=True` semantics: run commands until
one fails; return the commands actually issued (the failing one included)
and whether all succeeded. -/
def runCmds (exec : ExtCmd → Bool) : List ExtCmd → List ExtCmd × Bool
  | [] => ([], true)
  | c :: rest =>
    if exec c then
      let r := runCmds exec rest
      (c :: r.1, r.2)
    else ([c], false)

/-- Observable effects of one coordinator operation: the external commands
issued, whether the tree was rebuilt, and the cursor row explicitly set by
the operation (`none` = the operation did not move the cursor). -/
structure OpEffects where
  issued : List ExtCmd
  refreshed : Bool
  cursor : Option Int
deriving DecidableEq

/-- Embedding of `MainApp._handle_delete_target`: run the command list;
on any failure log and return without refreshing; on success refresh and,
when a replacement exists, set the cursor to its (pre-refresh) jump code
minus one. -/
def handle_delete_target (exec : ExtCmd → Bool) (target : NodeData)
    (next_target : Option NodeData) : OpEffects :=
  let r := runCmds exec (delete_cmds target next_target)
  if r.2 then
    { issued := r.1, refreshed := true,
      cursor := next_target.map (fun n => dataJump n - 1) }
  else
    { issued := r.1, refreshed := false, cursor := none }

/-- Embedding of `MainApp.handle_delete` together with the replacement
choosers it calls: with an empty snapshot nothing happens; a session or
window target is routed to `_handle_delete_target` with its chosen
replacement; a pane target falls through both `isinstance` checks and is
silently ignored — no command is issued, so the kill-pane entry of the
dispatch table is never reached from here. -/
def handle_delete (exec : ExtCmd → Bool) (history : List NodeData)
    (sessions : List TmuxSession) (target : NodeData) : OpEffects :=
  if sessions.isEmpty then
    { issued := [], refreshed := false, cursor := none }
  else
    match target with
    | .session s =>
      handle_delete_target exec (NodeData.session s)
        (handle_delete_session_next history sessions s)
    | .window w =>
      handle_delete_target exec (NodeData.window w)
        (handle_delete_window_next history sessions w)
    | .pane _ => { issued := [], refreshed := false, cursor := none }

/-- Outcome of `MainApp.handle_rename`: either the unsupported-pane error,
or the issued command with the resulting effects.  On success the tree is
rebuilt from the post-rename snapshot and, for a session target, the
cursor moves to the renamed session found by its new name. -/
structure RenameEffects where
  unsupported : Bool
  issued : List ExtCmd
  refreshed : Bool
  cursor : Option Int
deriving DecidableEq

/-- The rename command chosen by the target's kind (panes raise
`NotImplementedError` before any command is issued). -/
def renameCmd (target : NodeData) (name : List Char) : Option ExtCmd :=
  match target with
  | .session s => some (ExtCmd.rename_session s.id name)
  | .window w => some (ExtCmd.rename_window w.id name)
  | .pane _ => none

/-- Embedding of `MainApp.handle_rename` over a given post-rename
snapshot: issue the rename; on failure log and return without refreshing;
on success refresh and, for a session target, move the cursor to the
session found by the new name. -/
def handle_rename (exec : ExtCmd → Bool) (cfg : Config)
    (snapAfter : List TmuxSession) (target : NodeData) (name : List Char) :
    RenameEffects :=
  match renameCmd target name with
  | none => { unsupported := true, issued := [], refreshed := false,
              cursor := none }
  | some cmd =>
    if exec cmd then
      let r := refresh cfg snapAfter
      let cursor :=
        match target with
        | .session _ =>
          (find_session_by_name r.sessions name).map
            (fun s => s.jump_code - 1)
        | _ => none
      { unsupported := false, issued := [cmd], refreshed := true, cursor }
    else
      { unsupported := false, issued := [cmd], refreshed := false,
        cursor := none }

/-!
Numeric jump entry (`TmuxTree.on_key`) and the pane-visibility toggle
(`TmuxTree.action_toggle_panes`).  Timestamps are modelled as rationals;
`time.time()` is always positive in practice, and the Python truthiness
test on `current_jump_updated` is modelled as the stored stamp being
non-zero.
-/

/-- The `JUMP_TIMEOUT` constant (0.5 time-units). -/
def JUMP_TIMEOUT : ℚ := 1 / 2

/-- The pending jump buffer and its last-update timestamp
(`current_jump_label`, `current_jump_updated`). -/
structure JumpState where
  label : Option (List Char) := none
  updated : Option ℚ := none
deriving DecidableEq

/-- Whether a key is one of the digit keys handled by `on_key`. -/
def digitKey (c : Char) : Bool := "1234567890".data.contains c

/-- Decimal value of a digit buffer, modelling Python `int(buffer)`. -/
def digitsVal (s : List Char) : Int :=
  (s.foldl (fun a c => a * 10 + (c.toNat - '0'.toNat)) 0 : Nat)

/-- Embedding of `TmuxTree.on_key`: on a digit key while numbers are
shown, extend the buffer when the previous stamp is truthy and less than
`JUMP_TIMEOUT` old, otherwise start a new buffer; then stamp the time and
move the cursor to `int(buffer) - 1`.  Returns the new state and the
cursor row set (or `none` when the key is ignored). -/
def on_key (show_numbers : Bool) (st : JumpState) (key : Char) (now : ℚ) :
    JumpState × Option Int :=
  if show_numbers && digitKey key then
    let extends_buffer :=
      match st.updated with
      | some u => decide (u ≠ 0) && decide (now - u < JUMP_TIMEOUT)
      | none => false
    let newLabel :=
      if extends_buffer then (st.label.getD []) ++ [key] else [key]
    (⟨some newLabel, some now⟩, some (digitsVal newLabel - 1))
  else (st, none)

/-- Result of `action_toggle_panes`: the flipped config, the refreshed
snapshot and display rows, and the cursor row explicitly set by the
handler (`none` = the handler left the cursor at the refresh default). -/
structure ToggleResult where
  cfg : Config
  sessions : List TmuxSession
  disp : List DisplayNode
  cursor : Option Int
deriving DecidableEq

/-- Embedding of `TmuxTree.action_toggle_panes`: flip `show_panes`,
refresh, then — when a node was highlighted — re-target: a pane while
panes were just hidden resolves to its owning window via `_find_window`;
anything else is re-located by id via `_find_target`; if a target is
found the cursor moves to its jump code minus one. -/
def action_toggle_panes (cfg : Config) (snap : List TmuxSession)
    (old : Option NodeData) : ToggleResult :=
  let cfg' := { cfg with show_panes := !cfg.show_panes }
  let r := refresh cfg' snap
  match old with
  | none => ⟨cfg', r.sessions, r.disp, none⟩
  | some src =>
    let target : Option NodeData :=
      match src with
      | .pane p =>
        if !cfg'.show_panes then
          (find_window r.sessions p.window_id).map NodeData.window
        else find_target r.sessions src
      | _ => find_target r.sessions src
    ⟨cfg', r.sessions, r.disp, target.map (fun t => dataJump t - 1)⟩

/-!
The concrete end-to-end scenario of C1: sessions A (windows a1, a2) and
B (no windows), search term "a1", all toggles off.
-/

/-- Window a1 of session A in the C1 scenario. -/
def winA1 : TmuxWindow :=
  { id := "@a1".data, name := "a1".data, index := "1".data,
    session_id := "$A".data }

/-- Window a2 of session A in the C1 scenario. -/
def winA2 : TmuxWindow :=
  { id := "@a2".data, name := "a2".data, index := "2".data,
    session_id := "$A".data }

/-- Session A in the C1 scenario. -/
def sessA : TmuxSession :=
  { id := "$A".data, name := "A".data, windows := [winA1, winA2] }

/-- Session B in the C1 scenario. -/
def sessB : TmuxSession := { id := "$B".data, name := "B".data }

/-- The C1 snapshot. -/
def snapC1 : List TmuxSession := [sessA, sessB]

/-- The C1 configuration: search term "a1", every toggle off. -/
def cfgC1 : Config := { search_term := "a1".data }

/-- The rows of a list carry jump codes `j+1, j+2, ...` in order. -/
def codesFrom (j : Nat) (ds : List DisplayNode) : Prop :=
  ∀ i (h : i < ds.length), ds[i].jump_code = j + i + 1

/-- C10's inclusion condition, stated independently from the refresh code:
the show-hidden flag is on or the name's first two characters are not two
underscores, and single-session focus is off or the id equals the focused
session id. -/
def claimSessionIncluded (cfg : Config) (s : TmuxSession) : Bool :=
  (cfg.show_hidden_sessions || !(decide (s.name.take 2 = "__".data))) &&
  (match cfg.focus_on_session with
   | none => true
   | some fid => decide (s.id = fid))

/-- A pane used in the C9 witness scenario. -/
def paneP : TmuxPane :=
  { id := "%1".data, name := "p".data, index := "1".data,
    window_id := "@a1".data, session_id := "$A".data }

/-!
The delete-replacement scenario of C3.  Sessions S1 = A with windows
[a1, t] and S2 = B with window [b].
-/

/-- The deletion-target window t of session A in the C3 scenario. -/
def winT : TmuxWindow :=
  { id := "@t".data, name := "t".data, index := "2".data,
    session_id := "$A".data }

/-- The window b of session B in the C3 scenario. -/
def winB : TmuxWindow :=
  { id := "@b".data, name := "b".data, index := "1".data,
    session_id := "$B".data }

/-- Session A of the C3 scenario, with windows a1 and t. -/
def sessC3A : TmuxSession :=
  { id := "$A".data, name := "A".data, windows := [winA1, winT] }

/-- Session B of the C3 scenario, with window b. -/
def sessC3B : TmuxSession :=
  { id := "$B".data, name := "B".data, windows := [winB] }

/-!
Lemmas about the fuzzy matcher.
-/

/-- The greedy scan succeeds exactly on subsequences. -/
lemma subseqScan_iff_sublist (xs p : List Char) :
    subseqScan p xs = true ↔ p.Sublist xs := by
  induction xs generalizing p with
  | nil =>
    cases p with
    | nil => simp [subseqScan]
    | cons a as =>
      simp only [subseqScan, Bool.false_eq_true, false_iff]
      exact fun h => by simpa using h.length_le
  | cons c cs ih =>
    cases p with
    | nil => simp [subseqScan, List.nil_sublist]
    | cons a as =>
      by_cases h : c = a
      · subst h
        have hstep : subseqScan (c :: as) (c :: cs) = subseqScan as cs := by
          simp [subseqScan]
        rw [hstep, ih]
        exact List.cons_sublist_cons.symm
      · simp only [subseqScan, if_neg h]
        rw [ih]
        constructor
        · intro hs; exact hs.cons c
        · intro hs
          cases hs with
          | cons _ h' => exact h'
          | cons₂ => exact absurd rfl h

/-- The markup loop consumes its whole pattern exactly when the greedy
scan of the pattern over the lower-cased name succeeds. -/
lemma markupLoop_rest_empty_iff (name pat : List Char) :
    (markupLoop pat name).2 = [] ↔ subseqScan pat (lowerL name) = true := by
  induction name generalizing pat with
  | nil =>
    cases pat with
    | nil => simp [markupLoop, subseqScan, lowerL]
    | cons p ps => simp [markupLoop, subseqScan, lowerL]
  | cons c cs ih =>
    cases pat with
    | nil => simp [markupLoop, subseqScan, lowerL, ih]
    | cons p ps =>
      by_cases h : c.toLower = p
      · simp [markupLoop, if_pos h, lowerL, subseqScan, h, ih]
      · simp [markupLoop, if_neg h, lowerL, subseqScan, h, ih]

/-- C4: for a slash-free search term the own-name match succeeds exactly
when the lower-cased, space-stripped term occurs as an ordered
subsequence of the lower-cased candidate name (the greedy scan consumes
every pattern character); otherwise the result is `None`. -/
theorem c4_own_name_full_consumption (t p n : List Char) (h : '/' ∉ t) :
    (apply_fuzzy_markup t p n).isSome = true ↔
      (stripSpaces (lowerL t)).Sublist (lowerL n) := by
  have hc : t.contains '/' = false := by
    simp [List.contains, List.elem_eq_mem, h]
  by_cases ht : t = []
  · subst ht
    simp [apply_fuzzy_markup, stripSpaces, lowerL, List.nil_sublist]
  · have hne : t.isEmpty = false := by
      cases t with
      | nil => exact absurd rfl ht
      | cons a as => rfl
    rw [← subseqScan_iff_sublist, ← markupLoop_rest_empty_iff]
    have hstep : apply_fuzzy_markup t p n =
        (if (markupLoop (stripSpaces (lowerL t)) n).2.isEmpty then
          some (markupLoop (stripSpaces (lowerL t)) n).1.flatten
        else none) := by
      simp [apply_fuzzy_markup, hne, hc, h]
    rw [hstep]
    by_cases hr : (markupLoop (stripSpaces (lowerL t)) n).2 = []
    · simp [hr]
    · simp [hr]

/-- Witness for C4 at the spec's own example: "abc" fully consumes against
"aXbXc". -/
theorem c4_own_name_full_consumption_witness :
    (apply_fuzzy_markup "abc".data [] "aXbXc".data).isSome = true :=
  (c4_own_name_full_consumption "abc".data [] "aXbXc".data
    (by decide)).mpr (by decide)

/-- C2 counterexample: with an empty parent display name the parent check
is skipped, so the candidate is accepted even though the pre-slash term
"x" does not match the empty parent name as a subsequence. -/
theorem c2_counterexample :
    is_fuzzy_match "x".data [] = false ∧
      apply_fuzzy_markup "x/a".data [] "a".data ≠ none := by decide

/-- C2 (amended): for a search term containing "/", a **non-empty**
parent display name, and any candidate name, failure of the pre-slash
subsequence match against the parent rejects the candidate outright. -/
theorem c2_parent_scope_rejects (t p n : List Char)
    (hs : '/' ∈ t) (hp : p ≠ [])
    (hm : is_fuzzy_match (t.takeWhile (fun c => !(c == '/'))) p = false) :
    apply_fuzzy_markup t p n = none := by
  have hne : t.isEmpty = false := by
    cases t with
    | nil => simp at hs
    | cons a as => rfl
  have hpst : t.takeWhile (fun c => !(c == '/')) ≠ [] := by
    intro h0
    rw [h0] at hm
    simp [is_fuzzy_match, lowerL, subseqScan] at hm
  simp [apply_fuzzy_markup, hne, hs, hp, hpst, hm]

/-- Witness for C2 (amended) at a concrete input: term "x/a", parent "b",
candidate "a". -/
theorem c2_parent_scope_rejects_witness :
    apply_fuzzy_markup "x/a".data "b".data "a".data = none :=
  c2_parent_scope_rejects "x/a".data "b".data "a".data (by decide)
    (by decide) (by decide)

/-- C1 counterexample: in the rebuilt tree for the C1 scenario both
session rows (A and B) are disabled, contradicting the claim that the
session nodes stay enabled. -/
theorem c1_counterexample :
    ((refresh cfgC1 snapC1).disp.filter
        (fun d => d.kind == NodeKind.session)).map
      (fun d => d.is_enabled) = [false, false] := by decide

/-- C1 (amended): in the C1 scenario the rebuilt tree marks window a1
enabled with both characters of its name wrapped in emphasis markup,
marks window a2 disabled, and marks the session nodes A and B disabled
(their names do not fully consume the term "a1"). -/
theorem c1_end_to_end :
    (refresh cfgC1 snapC1).disp.map (fun d => (d.node_id, d.is_enabled))
      = [("$A".data, false), ("@a1".data, true), ("@a2".data, false),
         ("$B".data, false)]
    ∧ ((refresh cfgC1 snapC1).disp[1]?).map (fun d => d.label)
      = some ("[underline bold]a[/][underline bold]1[/]".data) := by decide

/-!
Jump-code contiguity: the display rows produced by a refresh carry jump
codes equal to their 1-based position in displayed pre-order.
-/

/-- The empty row list trivially satisfies `codesFrom`. -/
lemma codesFrom_nil (j : Nat) : codesFrom j [] := by
  intro i h
  simp at h

/-- Extending a `codesFrom` list at the front. -/
lemma codesFrom_cons {j : Nat} {d : DisplayNode} {ds : List DisplayNode}
    (hd : d.jump_code = j + 1) (ht : codesFrom (j + 1) ds) :
    codesFrom j (d :: ds) := by
  intro i h
  cases i with
  | zero => simpa using hd
  | succ n =>
    have hn : n < ds.length := by simpa using h
    have h2 := ht n hn
    simp only [List.getElem_cons_succ]
    omega

/-- Concatenating two `codesFrom` lists whose ranges are adjacent. -/
lemma codesFrom_append {j : Nat} {ds es : List DisplayNode}
    (h1 : codesFrom j ds) (h2 : codesFrom (j + ds.length) es) :
    codesFrom j (ds ++ es) := by
  intro i h
  by_cases hi : i < ds.length
  · rw [List.getElem_append_left hi]
    exact h1 i hi
  · have hge : ds.length ≤ i := Nat.le_of_not_lt hi
    have hlt : i - ds.length < es.length := by
      simp only [List.length_append] at h
      omega
    rw [List.getElem_append_right hge]
    have h3 := h2 (i - ds.length) hlt
    omega

/-- The pane loop emits one row per pane, advances the jump counter by the
number of rows, and numbers its rows consecutively from its start. -/
lemma refreshPanes_spec (cfg : Config) (pn : List Char) :
    ∀ ps j, (refreshPanes cfg pn j ps).2.2
        = j + (refreshPanes cfg pn j ps).2.1.length
      ∧ codesFrom j (refreshPanes cfg pn j ps).2.1 := by
  intro ps
  induction ps with
  | nil =>
    intro j
    exact ⟨by simp [refreshPanes], codesFrom_nil j⟩
  | cons p rest ih =>
    intro j
    have ihj := ih (j + 1)
    constructor
    · simp only [refreshPanes, List.length_cons]
      omega
    · simp only [refreshPanes]
      exact codesFrom_cons rfl ihj.2

/-- The window loop advances the jump counter by the number of emitted
rows and numbers its rows consecutively from its start. -/
lemma refreshWindows_spec (cfg : Config) (sn : List Char) :
    ∀ ws j, (refreshWindows cfg sn j ws).2.2
        = j + (refreshWindows cfg sn j ws).2.1.length
      ∧ codesFrom j (refreshWindows cfg sn j ws).2.1 := by
  intro ws
  induction ws with
  | nil =>
    intro j
    exact ⟨by simp [refreshWindows], codesFrom_nil j⟩
  | cons w rest ih =>
    intro j
    by_cases hp : cfg.show_panes
    · have hps := refreshPanes_spec cfg w.name w.panes (j + 1)
      have ihr := ih (refreshPanes cfg w.name (j + 1) w.panes).2.2
      constructor
      · simp only [refreshWindows, hp, if_pos, List.length_cons,
          List.length_append]
        omega
      · simp only [refreshWindows, hp, if_pos]
        refine codesFrom_cons rfl (codesFrom_append hps.2 ?_)
        rw [← hps.1]
        exact ihr.2
    · have ihr := ih (j + 1)
      constructor
      · simp [refreshWindows, hp]
        omega
      · simp only [refreshWindows, hp, Bool.false_eq_true, if_false,
          List.nil_append]
        refine codesFrom_cons rfl ?_
        simpa using ihr.2

/-- The session loop advances the jump counter by the number of emitted
rows and numbers its rows consecutively from its start. -/
lemma refreshSessions_spec (cfg : Config) :
    ∀ snap j, (refreshSessions cfg j snap).2.2
        = j + (refreshSessions cfg j snap).2.1.length
      ∧ codesFrom j (refreshSessions cfg j snap).2.1 := by
  intro snap
  induction snap with
  | nil =>
    intro j
    exact ⟨by simp [refreshSessions], codesFrom_nil j⟩
  | cons s rest ih =>
    intro j
    by_cases hv : sessionVisible cfg s = true
    · have hws := refreshWindows_spec cfg s.name s.windows (j + 1)
      have ihr := ih (refreshWindows cfg s.name (j + 1) s.windows).2.2
      constructor
      · simp only [refreshSessions, hv, if_pos, List.length_cons,
          List.length_append]
        omega
      · simp only [refreshSessions, hv, if_pos]
        refine codesFrom_cons rfl (codesFrom_append hws.2 ?_)
        rw [← hws.1]
        exact ihr.2
    · have ihr := ih j
      constructor
      · simp [refreshSessions, hv]
        omega
      · simp only [refreshSessions, hv, Bool.false_eq_true, if_false]
        exact ihr.2

/-- C5: for every snapshot, every combination of toggle flags and every
search term, the jump codes assigned during a rebuild equal each row's
1-based position in displayed pre-order — a contiguous sequence `1..K`
over the `K` displayed rows, with no duplicates and no gaps. -/
theorem c5_jump_codes_contiguous (cfg : Config) (snap : List TmuxSession)
    (i : Nat) (h : i < ((refresh cfg snap).disp).length) :
    ((refresh cfg snap).disp)[i].jump_code = i + 1 := by
  have hc := (refreshSessions_spec cfg snap 0).2 i h
  simpa using hc

/-- Witness for C5: in the C1 scenario the third displayed row carries
jump code 3. -/
theorem c5_jump_codes_contiguous_witness :
    2 < ((refresh cfgC1 snapC1).disp).length ∧
      ((refresh cfgC1 snapC1).disp.get ⟨2, by decide⟩).jump_code = 2 + 1 :=
  ⟨by decide, c5_jump_codes_contiguous cfgC1 snapC1 2 (by decide)⟩

/-!
Session inclusion (C10): which snapshot sessions appear in the displayed
tree.
-/

/-- `isPrefixOf` on character lists agrees with taking and comparing the
pattern-length front. -/
lemma isPrefixOf_take (p l : List Char) :
    p.isPrefixOf l = true ↔ l.take p.length = p := by
  induction p generalizing l with
  | nil => simp [List.isPrefixOf]
  | cons x xs ih =>
    cases l with
    | nil => simp [List.isPrefixOf]
    | cons y ys =>
      simp only [List.isPrefixOf, List.length_cons, List.take_succ_cons,
        Bool.and_eq_true, beq_iff_eq, List.cons.injEq, ih]
      constructor
      · rintro ⟨h1, h2⟩; exact ⟨h1.symm, h2⟩
      · rintro ⟨h1, h2⟩; exact ⟨h1.symm, h2⟩

/-- The double-underscore test equals the take-two comparison. -/
lemma startsWithUU_take (l : List Char) :
    startsWithUU l = decide (l.take 2 = "__".data) := by
  rw [Bool.eq_iff_iff, decide_eq_true_iff]
  exact isPrefixOf_take "__".data l

/-- The refresh-side visibility filter coincides pointwise with C10's
inclusion condition. -/
lemma sessionVisible_eq_claim (cfg : Config) (s : TmuxSession) :
    sessionVisible cfg s = claimSessionIncluded cfg s := by
  unfold sessionVisible claimSessionIncluded
  rw [startsWithUU_take]
  cases cfg.focus_on_session with
  | none => rfl
  | some fid =>
    rw [Bool.eq_iff_iff]
    simp

/-- Every row emitted by the pane loop is a pane row. -/
lemma refreshPanes_kinds (cfg : Config) (pn : List Char) :
    ∀ ps j d, d ∈ (refreshPanes cfg pn j ps).2.1 → d.kind = NodeKind.pane := by
  intro ps
  induction ps with
  | nil =>
    intro j d hd
    simp [refreshPanes] at hd
  | cons p rest ih =>
    intro j d hd
    simp only [refreshPanes, List.mem_cons] at hd
    cases hd with
    | inl h => rw [h]
    | inr h => exact ih (j + 1) d h

/-- No row emitted by the window loop is a session row. -/
lemma refreshWindows_kinds (cfg : Config) (sn : List Char) :
    ∀ ws j d, d ∈ (refreshWindows cfg sn j ws).2.1 →
      d.kind ≠ NodeKind.session := by
  intro ws
  induction ws with
  | nil =>
    intro j d hd
    simp [refreshWindows] at hd
  | cons w rest ih =>
    intro j d hd
    by_cases hp : cfg.show_panes
    · simp only [refreshWindows, hp, if_pos, List.mem_cons,
        List.mem_append] at hd
      rcases hd with h | h | h
      · rw [h]; intro hc; cases hc
      · rw [refreshPanes_kinds cfg w.name w.panes (j + 1) d h]
        intro hc; cases hc
      · exact ih _ d h
    · simp only [refreshWindows, hp, Bool.false_eq_true, if_false,
        List.nil_append, List.mem_cons] at hd
      rcases hd with h | h
      · rw [h]; intro hc; cases hc
      · exact ih _ d h

/-- The ids of the session rows of a refresh, in order, are exactly the
ids of the snapshot sessions passing the visibility filter. -/
lemma refreshSessions_session_ids (cfg : Config) :
    ∀ snap j, (((refreshSessions cfg j snap).2.1.filter
        (fun d => d.kind == NodeKind.session)).map (fun d => d.node_id))
      = (snap.filter (fun s => sessionVisible cfg s)).map
          (fun s => s.id) := by
  intro snap
  induction snap with
  | nil =>
    intro j
    simp [refreshSessions]
  | cons s rest ih =>
    intro j
    by_cases hv : sessionVisible cfg s = true
    · have hw : ((refreshWindows cfg s.name (j + 1) s.windows).2.1.filter
          (fun d => d.kind == NodeKind.session)) = [] := by
        rw [List.filter_eq_nil_iff]
        intro d hd hk
        exact refreshWindows_kinds cfg s.name s.windows (j + 1) d hd
          (by simpa using hk)
      simp only [refreshSessions, hv, if_pos, List.filter_cons,
        List.filter_append, hw, List.nil_append, List.map_cons]
      simp only [show (NodeKind.session == NodeKind.session) = true from rfl,
        if_pos]
      rw [List.map_cons, ih]
    · simp only [refreshSessions, hv, Bool.false_eq_true, if_false]
      rw [ih]
      simp [List.filter_cons, hv]

/-- C10: a snapshot session appears in the displayed tree exactly when
(show-hidden is on or its name does not start with two underscores) and
(single-session focus is off or its id is the focused one); the session
rows list, in order and with multiplicity, equals the filtered snapshot. -/
theorem c10_session_inclusion (cfg : Config) (snap : List TmuxSession) :
    (((refresh cfg snap).disp.filter
        (fun d => d.kind == NodeKind.session)).map (fun d => d.node_id))
      = (snap.filter (claimSessionIncluded cfg)).map (fun s => s.id) := by
  have h := refreshSessions_session_ids cfg snap 0
  have hf : snap.filter (fun s => sessionVisible cfg s)
      = snap.filter (claimSessionIncluded cfg) :=
    List.filter_congr (fun s _ => sessionVisible_eq_claim cfg s)
  rw [← hf]
  exact h

/-- The commands actually issued by `_handle_delete_target` are the run
of its planned command list, whichever way the run ends. -/
lemma handle_delete_target_issued (exec : ExtCmd → Bool) (t : NodeData)
    (n : Option NodeData) :
    (handle_delete_target exec t n).issued
      = (runCmds exec (delete_cmds t n)).1 := by
  unfold handle_delete_target
  by_cases h : (runCmds exec (delete_cmds t n)).2 = true
  · simp [h]
  · simp [h]

/-- C6 counterexample: a confirmed delete on a pane target issues no
external command at all — in particular no kill-pane — because
`handle_delete` dispatches only on session and window targets and lets a
pane fall through. -/
theorem c6_counterexample :
    (handle_delete (fun _ => true) [] [sessC3A, sessC3B]
        (NodeData.pane paneP)).issued = []
    ∧ ExtCmd.kill_pane paneP.id ∉ (handle_delete (fun _ => true) []
        [sessC3A, sessC3B] (NodeData.pane paneP)).issued := by decide

/-- C6 (amended): a delete confirmed on a pane issues no commands; for a
session or window target (with a non-empty snapshot) the issued commands
are the run of the planned list, and that plan is exactly the
switch-focus command to the replacement (present exactly when one was
found) followed by the single destructive command selected by the
target's kind — kill-session for a session, kill-window for a window —
so the destructive command is never issued before focus has moved off
the target. -/
theorem c6_delete_command_dispatch (exec : ExtCmd → Bool)
    (history : List NodeData) (sessions : List TmuxSession)
    (target : NodeData) :
    (∀ p, target = NodeData.pane p →
      (handle_delete exec history sessions target).issued = [])
    ∧ (∀ s, target = NodeData.session s → sessions ≠ [] →
      (handle_delete exec history sessions target).issued
        = (runCmds exec (delete_cmds target
            (handle_delete_session_next history sessions s))).1)
    ∧ (∀ w, target = NodeData.window w → sessions ≠ [] →
      (handle_delete exec history sessions target).issued
        = (runCmds exec (delete_cmds target
            (handle_delete_window_next history sessions w))).1)
    ∧ (∀ n, (delete_cmds target n).filter isDestructive = [killCmd target]
        ∧ (delete_cmds target n).getLast? = some (killCmd target)
        ∧ (delete_cmds target n).dropLast
            = (match n with
               | some x => [ExtCmd.switch_client (dataId x)]
               | none => []))
    ∧ ((match target with
        | .session s => killCmd target = ExtCmd.kill_session s.id
        | .window w => killCmd target = ExtCmd.kill_window w.id
        | .pane _ => True) : Prop) := by
  refine ⟨?_, ?_, ?_, ?_, ?_⟩
  · intro p hp
    subst hp
    by_cases hs : sessions.isEmpty
    · simp [handle_delete, hs]
    · simp [handle_delete, hs]
  · intro s hp hs
    subst hp
    have he : sessions.isEmpty = false := by simp [hs]
    simp only [handle_delete, he, Bool.false_eq_true, if_false]
    exact handle_delete_target_issued exec (NodeData.session s)
      (handle_delete_session_next history sessions s)
  · intro w hp hs
    subst hp
    have he : sessions.isEmpty = false := by simp [hs]
    simp only [handle_delete, he, Bool.false_eq_true, if_false]
    exact handle_delete_target_issued exec (NodeData.window w)
      (handle_delete_window_next history sessions w)
  · intro n
    cases n with
    | none => cases target <;> simp [delete_cmds, killCmd, isDestructive]
    | some x => cases target <;> simp [delete_cmds, killCmd, isDestructive]
  · cases target <;> simp [killCmd]

/-- Witness for C6 (amended): deleting window t with an all-succeeding
executor issues the run of its planned command list. -/
theorem c6_delete_command_dispatch_witness :
    (handle_delete (fun _ => true) [] [sessC3A, sessC3B]
        (NodeData.window winT)).issued
      = (runCmds (fun _ => true) (delete_cmds (NodeData.window winT)
          (handle_delete_window_next [] [sessC3A, sessC3B] winT))).1 :=
  (c6_delete_command_dispatch (fun _ => true) [] [sessC3A, sessC3B]
    (NodeData.window winT)).2.2.1 winT rfl (by decide)

/-- A failed run stops at the first failing command: the issued list is
the successful front followed by the failing command, and nothing after
it runs. -/
lemma runCmds_failure (exec : ExtCmd → Bool) :
    ∀ cmds, (runCmds exec cmds).2 = false →
      ∃ pre c suf, cmds = pre ++ c :: suf
        ∧ (runCmds exec cmds).1 = pre ++ [c]
        ∧ exec c = false ∧ ∀ d ∈ pre, exec d = true := by
  intro cmds
  induction cmds with
  | nil =>
    intro h
    simp [runCmds] at h
  | cons c rest ih =>
    intro h
    by_cases hc : exec c = true
    · simp only [runCmds, hc, if_pos] at h ⊢
      obtain ⟨pre, c', suf, h1, h2, h3, h4⟩ := ih h
      refine ⟨c :: pre, c', suf, by simp [h1], by simp [h2], h3, ?_⟩
      intro d hd
      rcases List.mem_cons.mp hd with h5 | h5
      · rw [h5]; exact hc
      · exact h4 d h5
    · have hc' : exec c = false := by
        cases h6 : exec c
        · rfl
        · exact absurd h6 hc
      refine ⟨[], c, rest, by simp, by simp [runCmds, hc'], hc', ?_⟩
      intro d hd
      simp at hd

/-- C7: for every delete and every rename, a failing external mutation
command aborts the operation — the commands after the failing one are
never issued, no resync happens, and the cursor is not moved, so the
displayed tree and cursor stay as they were. -/
theorem c7_mutation_failure_leaves_state (exec : ExtCmd → Bool) :
    (∀ (t : NodeData) (n : Option NodeData),
      (runCmds exec (delete_cmds t n)).2 = false →
        (handle_delete_target exec t n).refreshed = false
        ∧ (handle_delete_target exec t n).cursor = none
        ∧ ∃ suf, delete_cmds t n
            = (handle_delete_target exec t n).issued ++ suf)
    ∧ (∀ (cfg : Config) (snap : List TmuxSession) (t : NodeData)
        (nm : List Char) (cmd : ExtCmd),
      renameCmd t nm = some cmd → exec cmd = false →
        (handle_rename exec cfg snap t nm).refreshed = false
        ∧ (handle_rename exec cfg snap t nm).cursor = none) := by
  constructor
  · intro t n h
    obtain ⟨pre, c, suf, h1, h2, h3, h4⟩ :=
      runCmds_failure exec (delete_cmds t n) h
    refine ⟨by simp [handle_delete_target, h],
            by simp [handle_delete_target, h], ⟨suf, ?_⟩⟩
    simp only [handle_delete_target, h, Bool.false_eq_true, if_false]
    rw [h2, h1]
    simp
  · intro cfg snap t nm cmd hr hf
    constructor
    · simp [handle_rename, hr, hf]
    · simp [handle_rename, hr, hf]

/-- Witness for C7: an executor on which every command fails leaves both
a delete and a rename unrefreshed. -/
theorem c7_mutation_failure_leaves_state_witness :
    (handle_delete_target (fun _ => false) (NodeData.window winA1)
        none).refreshed = false
    ∧ (handle_rename (fun _ => false) {} [] (NodeData.session sessA)
        "z".data).refreshed = false :=
  ⟨((c7_mutation_failure_leaves_state (fun _ => false)).1
      (NodeData.window winA1) none (by decide)).1,
   ((c7_mutation_failure_leaves_state (fun _ => false)).2 {} []
      (NodeData.session sessA) "z".data
      (ExtCmd.rename_session "$A".data "z".data) rfl rfl).1⟩

/-- C8: when a digit key starts a new buffer (no pending stamp, a zero
stamp, or an expired one) and a second digit arrives within the timeout,
the buffer becomes the two-digit string and after each digit the cursor
jumps to the buffer's integer value minus one — ending on the two-digit
code, not the first digit. -/
theorem c8_two_digit_jump (st0 : JumpState) (d1 d2 : Char) (t1 t2 : ℚ)
    (h1 : digitKey d1 = true) (h2 : digitKey d2 = true)
    (hstart : (match st0.updated with
      | some u => u = 0 ∨ JUMP_TIMEOUT ≤ t1 - u
      | none => True))
    (ht1 : t1 ≠ 0) (ht2 : t2 - t1 < JUMP_TIMEOUT) :
    (on_key true st0 d1 t1).1.label = some [d1]
    ∧ (on_key true st0 d1 t1).2 = some (digitsVal [d1] - 1)
    ∧ (on_key true (on_key true st0 d1 t1).1 d2 t2).1.label = some [d1, d2]
    ∧ (on_key true (on_key true st0 d1 t1).1 d2 t2).2
        = some (digitsVal [d1, d2] - 1) := by
  have hext1 : (match st0.updated with
      | some u => decide (u ≠ 0) && decide (t1 - u < JUMP_TIMEOUT)
      | none => false) = false := by
    cases hu : st0.updated with
    | none => rfl
    | some u =>
      rw [hu] at hstart
      rcases hstart with h0 | hge
      · simp [h0]
      · simp [not_lt.mpr hge]
  have e1 : on_key true st0 d1 t1
      = (⟨some [d1], some t1⟩, some (digitsVal [d1] - 1)) := by
    unfold on_key
    rw [if_pos (by simp [h1])]
    simp only [hext1, Bool.false_eq_true, if_false]
  have e2 : on_key true (⟨some [d1], some t1⟩ : JumpState) d2 t2
      = (⟨some [d1, d2], some t2⟩, some (digitsVal [d1, d2] - 1)) := by
    unfold on_key
    rw [if_pos (by simp [h2])]
    have hext2 : (decide (t1 ≠ 0) && decide (t2 - t1 < JUMP_TIMEOUT))
        = true := by
      simp [ht1, ht2]
    simp only [hext2, if_pos]
    rfl
  rw [e1]
  exact ⟨rfl, rfl, by rw [e2], by rw [e2]⟩

/-- Witness for C8: from an empty state, pressing 1 at time 1 and 2 at
time 5/4 leaves the cursor at row 11 (code 12). -/
theorem c8_two_digit_jump_witness :
    (on_key true (on_key true (⟨none, none⟩ : JumpState) '1' 1).1
        '2' (5 / 4)).2 = some (digitsVal ['1', '2'] - 1) :=
  (c8_two_digit_jump ⟨none, none⟩ '1' '2' 1 (5 / 4) (by decide) (by decide)
    trivial (by norm_num) (by norm_num [JUMP_TIMEOUT])).2.2.2

/-- C9: toggling pane visibility off while the highlighted node is a pane
sets the cursor to the owning window's jump code minus one (the window
re-found by `_find_window` in the refreshed snapshot); in every other
highlighted situation the node is re-located by id via `_find_target` and
the cursor is restored to its jump code minus one when it still exists. -/
theorem c9_toggle_panes_cursor (cfg : Config) (snap : List TmuxSession)
    (old : Option NodeData) :
    (∀ p, old = some (NodeData.pane p) → cfg.show_panes = true →
      (action_toggle_panes cfg snap old).cursor
        = (find_window (refresh { cfg with show_panes := false }
            snap).sessions p.window_id).map (fun w => w.jump_code - 1))
    ∧ (∀ src, old = some src →
        ((∀ p, src ≠ NodeData.pane p) ∨ cfg.show_panes = false) →
      (action_toggle_panes cfg snap old).cursor
        = (find_target (refresh { cfg with show_panes := !cfg.show_panes }
            snap).sessions src).map (fun t => dataJump t - 1)) := by
  constructor
  · intro p hold hsp
    subst hold
    simp only [action_toggle_panes, hsp, Bool.not_true]
    simp [Option.map_map, dataJump]
    rfl
  · intro src hold hcase
    subst hold
    cases src with
    | session s => simp [action_toggle_panes]
    | window w => simp [action_toggle_panes]
    | pane p =>
      rcases hcase with hne | hsp
      · exact absurd rfl (hne p)
      · simp only [action_toggle_panes, hsp, Bool.not_false]
        rfl

/-- Witness for C9: hiding panes while a pane is highlighted re-targets
the cursor through its owning window. -/
theorem c9_toggle_panes_cursor_witness :
    (action_toggle_panes { show_panes := true } snapC1
        (some (NodeData.pane paneP))).cursor
      = (find_window (refresh { ({ show_panes := true } : Config) with
            show_panes := false } snapC1).sessions paneP.window_id).map
          (fun w => w.jump_code - 1) :=
  (c9_toggle_panes_cursor { show_panes := true } snapC1
    (some (NodeData.pane paneP))).1 paneP rfl rfl

/-- C3 evaluation: the history walk behaves as claimed — deleting session
S1 with history [S1, W1, S2] picks S2 — but the snapshot-order fallback
for window deletion does not: with a history containing only the target,
deleting window t of session A returns window b of session B (the first
qualifying window of the *last* session, because the Python `break` only
leaves the inner loop), not window a1 (the first in snapshot order, as
the claim requires). -/
theorem c3_replacement_eval :
    handle_delete_session_next
        [NodeData.session sessC3A, NodeData.window winA1,
         NodeData.session sessC3B]
        [sessC3A, sessC3B] sessC3A = some (NodeData.session sessC3B)
    ∧ handle_delete_window_next [NodeData.window winT]
        [sessC3A, sessC3B] winT = some (NodeData.window winB)
    ∧ NodeData.window winB ≠ NodeData.window winA1 := by
  refine ⟨by decide, by decide, by decide⟩
